import Mathlib

/-!
Verification of the Photo Geolocation Resolution Engine of the geotag
repository.  The engine core (TrackStore, PhotoRecordStore, MatchResolver,
CascadeResolver, RenameResolver) lives in the Python backend
(app/gpx_manager.py, app/photo_manager.py, app/server.py), which is not part
of the available sources; those components are modelled from the
specification, as marked on each definition.  The frontend functions
(formatCoords, formatOffsetSeconds, deleteManualMarker, applyFilters) are
translated directly from static/app.js.
-/

namespace Geotag

/-! ## Data model (spec §3) -/

/-- Modelled from the spec: TrackPoint record of the missing backend
(gpx_manager).  Coordinates as rationals, timestamps as integer seconds. -/
structure TrackPoint where
  latitude : ℚ
  longitude : ℚ
  elevation : Option ℚ
  time : ℤ
deriving DecidableEq, Repr

/-- Modelled from the spec: Track record of the missing backend,
with per-track `offsetSeconds`. -/
structure Track where
  id : String
  points : List TrackPoint
  offsetSeconds : ℤ
deriving DecidableEq, Repr

/-- The absent-coordinate sentinel used throughout the system. -/
def absentCoord : ℚ := -360

/-- Modelled from the spec: one coordinate layer
`{latitude, longitude, altitude}`; latitude/longitude use the `-360`
sentinel for absence, altitude uses `none`. -/
structure CoordLayer where
  latitude : ℚ
  longitude : ℚ
  altitude : Option ℚ
deriving DecidableEq, Repr

/-- The fully-absent coordinate layer. -/
def emptyLayer : CoordLayer := ⟨absentCoord, absentCoord, none⟩

/-- A layer is present when both latitude and longitude differ from the
absent sentinel (spec §4.4). -/
def CoordLayer.present (l : CoordLayer) : Prop :=
  l.latitude ≠ absentCoord ∧ l.longitude ≠ absentCoord

instance (l : CoordLayer) : Decidable l.present := by
  unfold CoordLayer.present
  infer_instance

/-- Modelled from the spec: the CascadeResolver pure function of the missing
backend: manual if present, else track, else EXIF, else fully absent
(spec §4.4; README "Final Coordinates Cascade Logic"). -/
def cascade (manual track exif : CoordLayer) : CoordLayer :=
  if manual.present then manual
  else if track.present then track
  else if exif.present then exif
  else emptyLayer

/-- Modelled from the spec: PhotoRecord of the missing backend
(photo_manager), with the four coordinate layers. -/
structure PhotoRecord where
  id : String
  captureTime : Option ℤ
  exifLayer : CoordLayer
  trackLayer : CoordLayer
  manualLayer : CoordLayer
  finalLayer : CoordLayer
  tagged : Bool
deriving DecidableEq, Repr

/-- Combined state of TrackStore and PhotoRecordStore. -/
structure SysState where
  tracks : List Track
  photos : List PhotoRecord
deriving DecidableEq, Repr

/-! ## TrackStore (spec §4.1) -/

/-- Character-wise ASCII lowercasing, used for every case-insensitive
name comparison in the system. -/
def lowerString (s : String) : String := ⟨s.data.map Char.toLower⟩

/-- `adjustedTime(p) = p.originalTime + offsetSeconds` (spec §3). -/
def adjustedTime (tr : Track) (p : TrackPoint) : ℤ :=
  p.time + tr.offsetSeconds

/-- Modelled from the spec: `allPoints` of the missing TrackStore — all
`(point, adjustedTime)` pairs across all tracks, in ingestion order. -/
def allPoints (tracks : List Track) : List (TrackPoint × ℤ) :=
  tracks.flatMap fun tr => tr.points.map fun p => (p, adjustedTime tr p)

/-- The fixed 5-minute tolerance window, in seconds (spec §4.3). -/
def toleranceWindow : ℤ := 300

/-- Absolute time distance between an adjusted time and a capture time. -/
def timeDist (a t : ℤ) : ℤ := |a - t|

/-- Modelled from the spec: MatchResolver's candidate set — all pairs whose
adjusted time is within the tolerance window of the capture time. -/
def candidates (tracks : List Track) (captureTime : ℤ) : List (TrackPoint × ℤ) :=
  (allPoints tracks).filter fun pa => decide (timeDist pa.2 captureTime ≤ toleranceWindow)

/-- All points with their ingestion-order index attached. -/
def allPointsIdx (tracks : List Track) : List (ℕ × TrackPoint × ℤ) :=
  (allPoints tracks).enum

/-- The candidate set with ingestion-order indices. -/
def candIdx (tracks : List Track) (captureTime : ℤ) : List (ℕ × TrackPoint × ℤ) :=
  (allPointsIdx tracks).filter fun c => decide (timeDist c.2.2 captureTime ≤ toleranceWindow)

/-- Selection key of a candidate: (time distance, adjusted time,
ingestion index), compared lexicographically (spec §4.3). -/
def candKey (captureTime : ℤ) (c : ℕ × TrackPoint × ℤ) : ℤ × ℤ × ℕ :=
  (timeDist c.2.2 captureTime, c.2.2, c.1)

/-- Strict lexicographic order on selection keys. -/
def keyLt (a b : ℤ × ℤ × ℕ) : Prop :=
  a.1 < b.1 ∨ (a.1 = b.1 ∧ (a.2.1 < b.2.1 ∨ (a.2.1 = b.2.1 ∧ a.2.2 < b.2.2)))

instance (a b : ℤ × ℤ × ℕ) : Decidable (keyLt a b) := by
  unfold keyLt
  infer_instance

/-- Keep the better of two candidates; on a tie the incumbent wins. -/
def pickBetter (t : ℤ) (b c : ℕ × TrackPoint × ℤ) : ℕ × TrackPoint × ℤ :=
  if keyLt (candKey t c) (candKey t b) then c else b

/-- Modelled from the spec: select the candidate minimizing the key,
deterministically (spec §4.3 tie-break). -/
def selectBest (t : ℤ) : List (ℕ × TrackPoint × ℤ) → Option (ℕ × TrackPoint × ℤ)
  | [] => none
  | c :: cs => some (cs.foldl (pickBetter t) c)

/-- Modelled from the spec: MatchResolver — best in-tolerance point for a
capture time, or `none` when the candidate set is empty. -/
def resolveMatch (tracks : List Track) (captureTime : ℤ) : Option TrackPoint :=
  match selectBest captureTime (candIdx tracks captureTime) with
  | none => none
  | some c => some c.2.1

/-! ## PhotoRecordStore and cascade recomputation (spec §4.2, §4.4) -/

/-- Recompute the derived final layer of a record from the other three. -/
def recompute (r : PhotoRecord) : PhotoRecord :=
  { r with finalLayer := cascade r.manualLayer r.trackLayer r.exifLayer }

/-- The coordinate layer carried by a track point. -/
def pointLayer (p : TrackPoint) : CoordLayer :=
  ⟨p.latitude, p.longitude, p.elevation⟩

/-- Modelled from the spec: recompute one photo's track layer from the
current TrackStore (no match clears the layer), then recompute the final
layer (spec §4.3). -/
def applyMatch (tracks : List Track) (r : PhotoRecord) : PhotoRecord :=
  match r.captureTime with
  | none => recompute { r with trackLayer := emptyLayer }
  | some t =>
    match resolveMatch tracks t with
    | none => recompute { r with trackLayer := emptyLayer }
    | some p => recompute { r with trackLayer := pointLayer p }

/-- Re-run matching for every photo (spec §9 `resolveAll`). -/
def resolveAll (st : SysState) : SysState :=
  { st with photos := st.photos.map (applyMatch st.tracks) }

/-- The error taxonomy of the core (spec §7). -/
inductive CoreError where
  | duplicateTrack
  | trackNotFound
  | invalidOffsetFormat
  | invalidCoordinate
deriving DecidableEq, Repr

/-- Insert a point into a time-sorted list. -/
def insertPoint (p : TrackPoint) : List TrackPoint → List TrackPoint
  | [] => [p]
  | q :: qs => if p.time ≤ q.time then p :: q :: qs else q :: insertPoint p qs

/-- Sort track points ascending by original time (spec §4.1 ingest). -/
def sortPoints : List TrackPoint → List TrackPoint
  | [] => []
  | p :: ps => insertPoint p (sortPoints ps)

/-- Modelled from the spec: TrackStore.ingest — duplicate-name rejection
(case-insensitive), points sorted by time, offset 0, then re-match all
photos (spec §4.1, §4.3). -/
def ingest (st : SysState) (trackId : String) (pts : List TrackPoint) :
    Option CoreError × SysState :=
  if st.tracks.any fun tr => lowerString tr.id == lowerString trackId then
    (some .duplicateTrack, st)
  else
    (none, resolveAll { st with tracks := st.tracks ++ [⟨trackId, sortPoints pts, 0⟩] })

/-- Modelled from the spec: TrackStore.remove — idempotent removal by id,
then re-match all photos (spec §4.1). -/
def removeTracks (st : SysState) (trackIds : List String) : SysState :=
  resolveAll { st with tracks := st.tracks.filter fun tr => decide (tr.id ∉ trackIds) }

/-- Modelled from the spec: TrackStore.setOffset with an integer offset —
`"*"` applies to every track, otherwise to the matching track, failing with
`trackNotFound` when absent (spec §4.1); photos re-matched. -/
def setOffsetSeconds (st : SysState) (trackId : String) (off : ℤ) :
    Option CoreError × SysState :=
  if trackId = "*" then
    (none, resolveAll
      { st with tracks := st.tracks.map fun tr => { tr with offsetSeconds := off } })
  else if st.tracks.any fun tr => tr.id == trackId then
    (none, resolveAll
      { st with tracks := st.tracks.map fun tr =>
          if tr.id = trackId then { tr with offsetSeconds := off } else tr })
  else (some .trackNotFound, st)

/-- Numeric value of a decimal digit character. -/
def digitVal (c : Char) : ℕ := c.toNat - 48

/-- Modelled from the spec: the signed `HH:MM:SS` offset grammar — a
mandatory `+`/`-` sign followed by three two-digit colon-separated fields
(spec §4.1 offset parsing contract). -/
def parseOffset (s : String) : Option ℤ :=
  match s.data with
  | [sg, h1, h2, c1, m1, m2, c2, s1, s2] =>
    if (sg == '+' || sg == '-') && h1.isDigit && h2.isDigit && (c1 == ':') &&
        m1.isDigit && m2.isDigit && (c2 == ':') && s1.isDigit && s2.isDigit then
      let v : ℤ := ((digitVal h1 * 10 + digitVal h2) * 3600 +
        (digitVal m1 * 10 + digitVal m2) * 60 + (digitVal s1 * 10 + digitVal s2) : ℕ)
      some (if sg == '+' then v else -v)
    else none
  | _ => none

/-- Modelled from the spec: setOffset taking the textual offset; invalid
syntax fails with `invalidOffsetFormat` before any mutation (spec §4.1). -/
def setOffset (st : SysState) (trackId : String) (offsetStr : String) :
    Option CoreError × SysState :=
  match parseOffset offsetStr with
  | none => (some .invalidOffsetFormat, st)
  | some off => setOffsetSeconds st trackId off

/-- Modelled from the spec: PhotoRecordStore.register — new record with
empty track/manual layers and the final layer computed immediately
(spec §4.2). -/
def register (st : SysState) (id : String) (captureTime : Option ℤ)
    (exif : CoordLayer) : SysState :=
  { st with photos := st.photos ++
      [recompute ⟨id, captureTime, exif, emptyLayer, emptyLayer, emptyLayer, false⟩] }

/-- Update the matching record in place and recompute its final layer. -/
def updatePhoto (st : SysState) (id : String) (f : PhotoRecord → PhotoRecord) :
    SysState :=
  { st with photos := st.photos.map fun r => if r.id = id then recompute (f r) else r }

/-- The manual-coordinate validation of spec §4.2. -/
def validCoordinate (lat lon : ℚ) : Prop :=
  -90 ≤ lat ∧ lat ≤ 90 ∧ -180 ≤ lon ∧ lon ≤ 180

instance (lat lon : ℚ) : Decidable (validCoordinate lat lon) := by
  unfold validCoordinate
  infer_instance

/-- Modelled from the spec: PhotoRecordStore.setManual — validates ranges,
fails with `invalidCoordinate` before any mutation, else writes the manual
layer and recomputes the cascade (spec §4.2). -/
def setManual (st : SysState) (id : String) (lat lon : ℚ) (alt : Option ℚ) :
    Option CoreError × SysState :=
  if validCoordinate lat lon then
    (none, updatePhoto st id fun r => { r with manualLayer := ⟨lat, lon, alt⟩ })
  else (some .invalidCoordinate, st)

/-- Modelled from the spec: PhotoRecordStore.clearManual (spec §4.2). -/
def clearManual (st : SysState) (id : String) : SysState :=
  updatePhoto st id fun r => { r with manualLayer := emptyLayer }

/-- Modelled from the spec: PhotoRecordStore.setTrackLayer (spec §4.2). -/
def setTrackLayer (st : SysState) (id : String) (lat lon : ℚ) (alt : Option ℚ) :
    SysState :=
  updatePhoto st id fun r => { r with trackLayer := ⟨lat, lon, alt⟩ }

/-- Modelled from the spec: PhotoRecordStore.clearTrackLayer (spec §4.2). -/
def clearTrackLayer (st : SysState) (id : String) : SysState :=
  updatePhoto st id fun r => { r with trackLayer := emptyLayer }

/-- Every observable operation of the engine (spec §4.1, §4.2). -/
inductive Op where
  | register (id : String) (captureTime : Option ℤ) (exif : CoordLayer)
  | setManual (id : String) (lat lon : ℚ) (alt : Option ℚ)
  | clearManual (id : String)
  | setTrackLayer (id : String) (lat lon : ℚ) (alt : Option ℚ)
  | clearTrackLayer (id : String)
  | ingest (trackId : String) (pts : List TrackPoint)
  | removeTracks (trackIds : List String)
  | setOffset (trackId : String) (offsetStr : String)

/-- One engine step; failing operations leave the state unchanged. -/
def step (st : SysState) : Op → SysState
  | .register id t exif => register st id t exif
  | .setManual id lat lon alt => (setManual st id lat lon alt).2
  | .clearManual id => clearManual st id
  | .setTrackLayer id lat lon alt => setTrackLayer st id lat lon alt
  | .clearTrackLayer id => clearTrackLayer st id
  | .ingest tid pts => (ingest st tid pts).2
  | .removeTracks tids => removeTracks st tids
  | .setOffset tid off => (setOffset st tid off).2

/-- The empty initial state (fresh session). -/
def initState : SysState := ⟨[], []⟩

/-- Run a sequence of operations from the initial state. -/
def run (ops : List Op) : SysState := ops.foldl step initState

/-! ## RenameResolver (spec §4.5) -/

/-- The single-letter suffix alphabet used for deduplication. -/
def suffixLetters : List Char :=
  ['a', 'b', 'c', 'd', 'e', 'f', 'g', 'h', 'i', 'j', 'k', 'l', 'm',
   'n', 'o', 'p', 'q', 'r', 's', 't', 'u', 'v', 'w', 'x', 'y', 'z']

/-- Case-insensitive comparison key of a generated name. -/
def lowerName (s : String) : String := lowerString s

/-- Modelled from the spec: pick the generated name for one base candidate
against the growing set of already-emitted names — the candidate itself if
free, else the candidate with the first unused letter of `a, b, c, …`
appended; `none` when the single-letter alphabet is exhausted, a case the
spec leaves undefined (spec §4.5). -/
def chooseName (used : List String) (base : String) : Option String :=
  if lowerName base ∉ used then some base
  else (suffixLetters.find? fun c => decide (lowerName (base.push c) ∉ used)).map
    (fun c => base.push c)

/-- Modelled from the spec: RenameResolver's pass over the base names in
sequence order, threading the case-insensitive set of emitted names
(spec §4.5). -/
def resolveNamesGo (used : List String) : List String → Option (List String)
  | [] => some []
  | b :: bs =>
    match chooseName used b with
    | none => none
    | some nm => (resolveNamesGo (lowerName nm :: used) bs).map (fun ns => nm :: ns)

/-- Modelled from the spec: RenameResolver on the full sequence of base
names (the template substitution that produces each base is an excluded
external collaborator, spec §1). -/
def resolveNames (bases : List String) : Option (List String) :=
  resolveNamesGo [] bases

/-! ## Frontend embeddings (static/app.js) -/

/-- The frontend photo record as exposed to static/app.js: the four
latitude/longitude pairs with the `-360` sentinel, plus the tag flag. -/
structure PhotoJS where
  exif_latitude : ℚ
  exif_longitude : ℚ
  gpx_latitude : ℚ
  gpx_longitude : ℚ
  manual_latitude : ℚ
  manual_longitude : ℚ
  final_latitude : ℚ
  final_longitude : ℚ
  tagged : Bool
deriving DecidableEq, Repr

/-- static/app.js `formatCoords` (displayEXIFInfo): `N/A` when latitude or
longitude equals `-360`, otherwise the displayed coordinate triple; `none`
here stands for the `N/A` branch. -/
def formatCoords (lat lon : ℚ) (alt : Option ℚ) : Option (ℚ × ℚ × Option ℚ) :=
  if lat = -360 ∨ lon = -360 then none else some (lat, lon, alt)

/-- `deleteManualMarker` of the earlier frontend (unnamed/part_000): resets
both manual fields of the selected photo to the `-360` sentinel. -/
def deleteManualMarker (p : PhotoJS) : PhotoJS :=
  { p with manual_latitude := -360, manual_longitude := -360 }

/-- static/app.js `applyFilters`, first stage: the combined tag/GPS-status
predicate applied to each photo.  As in the source, each `has…` flag tests
only the latitude against `-360`. -/
def applyFiltersPred (filterType : String) (p : PhotoJS) : Bool :=
  if filterType = "all" then true
  else
    let hasExif := decide (p.exif_latitude ≠ -360)
    let hasGpx := decide (p.gpx_latitude ≠ -360)
    let hasManual := decide (p.manual_latitude ≠ -360)
    let hasFinal := decide (p.final_latitude ≠ -360)
    let isTagged := p.tagged
    if filterType = "tagged" then isTagged
    else if filterType = "untagged" then !isTagged
    else if filterType = "with-gps" then hasFinal
    else if filterType = "no-gps" then !hasFinal
    else if filterType = "with-exif" then hasExif
    else if filterType = "with-gpx" then hasGpx
    else if filterType = "with-manual" then hasManual
    else if filterType = "tagged-with-gps" then isTagged && hasFinal
    else if filterType = "tagged-no-gps" then isTagged && !hasFinal
    else if filterType = "untagged-with-gps" then !isTagged && hasFinal
    else if filterType = "untagged-no-gps" then !isTagged && !hasFinal
    else true

/-- Decimal digit character, as produced by the JavaScript number-to-string
conversion. -/
def digitChar (n : ℕ) : Char := Char.ofNat (48 + n)

/-- Decimal representation of a natural number (JavaScript `String(n)`). -/
def toDec (n : ℕ) : List Char :=
  if _h : n < 10 then [digitChar n]
  else toDec (n / 10) ++ [digitChar (n % 10)]
termination_by n
decreasing_by exact Nat.div_lt_self (by omega) (by omega)

/-- JavaScript `padStart(2, '0')` on a character list. -/
def padStart2 (l : List Char) : List Char :=
  if l.length ≥ 2 then l else if l.length = 1 then '0' :: l else ['0', '0']

/-- The canonical two-digit rendering of a number below 100. -/
def pad2 (n : ℕ) : List Char := [digitChar (n / 10), digitChar (n % 10)]

/-- static/app.js `formatOffsetSeconds` (lines 575-582): sign `+` for
non-negative seconds, then zero-padded hours, minutes, seconds of the
absolute value joined by colons. -/
def formatOffsetSeconds (seconds : ℤ) : String :=
  let sign : Char := if seconds ≥ 0 then '+' else '-'
  let a := seconds.natAbs
  let hours := a / 3600
  let minutes := (a % 3600) / 60
  let secs := a % 60
  ⟨sign :: padStart2 (toDec hours) ++ ':' :: padStart2 (toDec minutes) ++
    ':' :: padStart2 (toDec secs)⟩

/-! ## The cascade invariant (C1) -/

/-- The spec §3 PhotoRecord invariant: every record's final layer equals
the cascade of its other three layers. -/
def FinalInv (st : SysState) : Prop :=
  ∀ r ∈ st.photos, r.finalLayer = cascade r.manualLayer r.trackLayer r.exifLayer

theorem recompute_sat (r : PhotoRecord) :
    (recompute r).finalLayer =
      cascade (recompute r).manualLayer (recompute r).trackLayer
        (recompute r).exifLayer := rfl

theorem applyMatch_sat (tracks : List Track) (r : PhotoRecord) :
    (applyMatch tracks r).finalLayer =
      cascade (applyMatch tracks r).manualLayer (applyMatch tracks r).trackLayer
        (applyMatch tracks r).exifLayer := by
  unfold applyMatch
  split
  · exact recompute_sat _
  · split
    · exact recompute_sat _
    · exact recompute_sat _

theorem finalInv_resolveAll (st : SysState) : FinalInv (resolveAll st) := by
  intro r hr
  simp only [resolveAll, List.mem_map] at hr
  obtain ⟨r', _, rfl⟩ := hr
  exact applyMatch_sat _ _

theorem finalInv_updatePhoto (st : SysState) (id : String)
    (f : PhotoRecord → PhotoRecord) (h : FinalInv st) :
    FinalInv (updatePhoto st id f) := by
  intro r hr
  simp only [updatePhoto, List.mem_map] at hr
  obtain ⟨r', hr', rfl⟩ := hr
  by_cases hid : r'.id = id
  · simp only [hid, if_pos rfl]
    exact recompute_sat _
  · simp only [if_neg hid]
    exact h r' hr'

theorem finalInv_step (st : SysState) (op : Op) (h : FinalInv st) :
    FinalInv (step st op) := by
  cases op with
  | register id t exif =>
    intro r hr
    simp only [step, register, List.mem_append, List.mem_singleton] at hr
    cases hr with
    | inl hmem => exact h r hmem
    | inr heq => subst heq; exact recompute_sat _
  | setManual id lat lon alt =>
    simp only [step, setManual]
    by_cases hv : validCoordinate lat lon
    · rw [if_pos hv]
      exact finalInv_updatePhoto _ _ _ h
    · rw [if_neg hv]
      exact h
  | clearManual id => exact finalInv_updatePhoto _ _ _ h
  | setTrackLayer id lat lon alt => exact finalInv_updatePhoto _ _ _ h
  | clearTrackLayer id => exact finalInv_updatePhoto _ _ _ h
  | ingest tid pts =>
    simp only [step, ingest]
    by_cases hc : st.tracks.any fun tr => lowerString tr.id == lowerString tid
    · rw [if_pos hc]
      exact h
    · rw [if_neg hc]
      exact finalInv_resolveAll _
  | removeTracks tids => exact finalInv_resolveAll _
  | setOffset tid off =>
    simp only [step, setOffset]
    cases parseOffset off with
    | none => exact h
    | some v =>
      simp only [setOffsetSeconds]
      by_cases h1 : tid = "*"
      · rw [if_pos h1]
        exact finalInv_resolveAll _
      · rw [if_neg h1]
        by_cases h2 : st.tracks.any fun tr => tr.id == tid
        · rw [if_pos h2]
          exact finalInv_resolveAll _
        · rw [if_neg h2]
          exact h

theorem finalInv_run (ops : List Op) : FinalInv (run ops) := by
  have key : ∀ (l : List Op) (st : SysState), FinalInv st →
      FinalInv (l.foldl step st) := by
    intro l
    induction l with
    | nil => intro st hst; exact hst
    | cons op l ih =>
      intro st hst
      exact ih _ (finalInv_step st op hst)
  refine key ops initState ?_
  intro r hr
  simp [initState] at hr

/-- C1: after any sequence of engine operations (register, setManual,
clearManual, setTrackLayer, clearTrackLayer, track ingest/removal/offset
change), every photo record's `finalLayer` equals the pure cascade of its
manual, track and EXIF layers — no observable state carries a stale
`finalLayer`. -/
theorem C1_finalLayer_always_cascade (ops : List Op) :
    ∀ r ∈ (run ops).photos,
      r.finalLayer = cascade r.manualLayer r.trackLayer r.exifLayer :=
  finalInv_run ops

/-- Witness for C1 at a concrete operation sequence. -/
theorem C1_finalLayer_always_cascade_witness :
    (⟨"p", some 0, ⟨1, 2, some 3⟩, emptyLayer, emptyLayer, ⟨1, 2, some 3⟩,
        false⟩ : PhotoRecord) ∈
      (run [.register "p" (some 0) ⟨1, 2, some 3⟩]).photos ∧
    (⟨"p", some 0, ⟨1, 2, some 3⟩, emptyLayer, emptyLayer, ⟨1, 2, some 3⟩,
        false⟩ : PhotoRecord).finalLayer =
      cascade emptyLayer emptyLayer ⟨1, 2, some 3⟩ :=
  ⟨by decide, C1_finalLayer_always_cascade [.register "p" (some 0) ⟨1, 2, some 3⟩]
    _ (by decide)⟩

/-! ## The tolerance window (C2) -/

theorem enumFrom_filter_map {α : Type} (p : α → Bool) :
    ∀ (n : ℕ) (l : List α),
      ((List.enumFrom n l).filter fun c => p c.2).map Prod.snd = l.filter p := by
  intro n l
  induction l generalizing n with
  | nil => rfl
  | cons a l ih =>
    simp only [List.enumFrom, List.filter]
    cases h : p a with
    | false => simpa [h] using ih (n + 1)
    | true => simp [h, ih (n + 1)]

theorem candidates_eq_map_candIdx (tracks : List Track) (t : ℤ) :
    candidates tracks t = (candIdx tracks t).map Prod.snd := by
  unfold candidates candIdx allPointsIdx List.enum
  exact (enumFrom_filter_map _ 0 _).symm

/-- C2: the MatchResolver candidate set holds exactly the track points whose
adjusted time is within 300 seconds of the capture time (inclusive
boundary); an empty candidate set gives "no match", and the caller then
clears the photo's track layer. -/
theorem C2_tolerance_window (tracks : List Track) (t : ℤ) :
    (∀ p a, (p, a) ∈ candidates tracks t ↔
      ((p, a) ∈ allPoints tracks ∧ timeDist a t ≤ toleranceWindow)) ∧
    (candidates tracks t = [] → resolveMatch tracks t = none) ∧
    (∀ (r : PhotoRecord) (t0 : ℤ), r.captureTime = some t0 →
      candidates tracks t0 = [] → (applyMatch tracks r).trackLayer = emptyLayer) := by
  have hmem : ∀ p a, (p, a) ∈ candidates tracks t ↔
      ((p, a) ∈ allPoints tracks ∧ timeDist a t ≤ toleranceWindow) := by
    intro p a
    unfold candidates
    rw [List.mem_filter]
    simp
  have hempty : ∀ t0 : ℤ, candidates tracks t0 = [] → resolveMatch tracks t0 = none := by
    intro t0 h0
    have hidx : candIdx tracks t0 = [] := by
      have := candidates_eq_map_candIdx tracks t0
      rw [h0] at this
      exact (List.map_eq_nil_iff.mp this.symm)
    unfold resolveMatch
    rw [hidx]
    rfl
  refine ⟨hmem, hempty t, ?_⟩
  intro r t0 hct h0
  unfold applyMatch
  rw [hct]
  dsimp only
  rw [hempty t0 h0]
  rfl

/-- Witness for C2: a point at distance exactly 300 s is a candidate, a
point at distance 301 s is not, and with no candidate the resolver reports
no match. -/
theorem C2_tolerance_window_witness :
    ((⟨1, 2, none, 300⟩, (300 : ℤ)) ∈
        candidates [⟨"boundary", [⟨1, 2, none, 300⟩], 0⟩] 0) ∧
    ((⟨1, 2, none, 301⟩, (301 : ℤ)) ∉
        candidates [⟨"beyond", [⟨1, 2, none, 301⟩], 0⟩] 0) ∧
    resolveMatch [⟨"beyond", [⟨1, 2, none, 301⟩], 0⟩] 0 = none :=
  ⟨((C2_tolerance_window [⟨"boundary", [⟨1, 2, none, 300⟩], 0⟩] 0).1 _ 300).mpr
      ⟨by decide, by decide⟩,
   fun h => absurd
     (((C2_tolerance_window [⟨"beyond", [⟨1, 2, none, 301⟩], 0⟩] 0).1 _ 301).mp h).2
     (by decide),
   (C2_tolerance_window [⟨"beyond", [⟨1, 2, none, 301⟩], 0⟩] 0).2.1 (by decide)⟩

/-! ## Deterministic best-candidate selection (C3) -/

theorem keyLt_irrefl (a : ℤ × ℤ × ℕ) : ¬ keyLt a a := by
  rcases a with ⟨a1, a2, a3⟩
  simp only [keyLt]
  omega

theorem keyLt_trans {a b c : ℤ × ℤ × ℕ} (h1 : keyLt a b) (h2 : keyLt b c) :
    keyLt a c := by
  rcases a with ⟨a1, a2, a3⟩
  rcases b with ⟨b1, b2, b3⟩
  rcases c with ⟨c1, c2, c3⟩
  simp only [keyLt] at *
  omega

theorem keyLt_total (a b : ℤ × ℤ × ℕ) : keyLt a b ∨ keyLt b a ∨ a = b := by
  rcases a with ⟨a1, a2, a3⟩
  rcases b with ⟨b1, b2, b3⟩
  simp only [keyLt, Prod.mk.injEq]
  omega

theorem foldl_pickBetter_mem (t : ℤ) :
    ∀ (cs : List (ℕ × TrackPoint × ℤ)) (acc : ℕ × TrackPoint × ℤ),
      cs.foldl (pickBetter t) acc = acc ∨ cs.foldl (pickBetter t) acc ∈ cs := by
  intro cs
  induction cs with
  | nil => intro acc; exact Or.inl rfl
  | cons c cs ih =>
    intro acc
    rw [List.foldl_cons]
    rcases ih (pickBetter t acc c) with h | h
    · rw [h]
      unfold pickBetter
      split
      · exact Or.inr (List.mem_cons_self _ _)
      · exact Or.inl rfl
    · exact Or.inr (List.mem_cons_of_mem _ h)

theorem foldl_pickBetter_min (t : ℤ) :
    ∀ (cs : List (ℕ × TrackPoint × ℤ)) (acc x : ℕ × TrackPoint × ℤ),
      (x = acc ∨ x ∈ cs) →
      ¬ keyLt (candKey t x) (candKey t (cs.foldl (pickBetter t) acc)) := by
  intro cs
  induction cs with
  | nil =>
    intro acc x hx
    rcases hx with rfl | hx
    · exact keyLt_irrefl _
    · simp at hx
  | cons c cs ih =>
    intro acc x hx
    rw [List.foldl_cons]
    rcases hx with rfl | hx
    · -- x is the incumbent acc
      by_cases hca : keyLt (candKey t c) (candKey t x)
      · have hc := ih (pickBetter t x c) c
          (Or.inl (by unfold pickBetter; rw [if_pos hca]))
        intro hlt
        exact hc (keyLt_trans hca hlt)
      · exact ih (pickBetter t x c) x
          (Or.inl (by unfold pickBetter; rw [if_neg hca]))
    · rcases List.mem_cons.mp hx with rfl | hx'
      · -- x is the newly considered candidate c
        by_cases hca : keyLt (candKey t x) (candKey t acc)
        · exact ih (pickBetter t acc x) x
            (Or.inl (by unfold pickBetter; rw [if_pos hca]))
        · have hacc := ih (pickBetter t acc x) acc
            (Or.inl (by unfold pickBetter; rw [if_neg hca]))
          intro hlt
          rcases keyLt_total (candKey t x) (candKey t acc) with h | h | h
          · exact hca h
          · exact hacc (keyLt_trans h hlt)
          · rw [h] at hlt
            exact hacc hlt
      · exact ih (pickBetter t acc c) x (Or.inr hx')

theorem selectBest_spec (t : ℤ) (l : List (ℕ × TrackPoint × ℤ)) (hne : l ≠ []) :
    ∃ b, selectBest t l = some b ∧ b ∈ l ∧
      ∀ c ∈ l, ¬ keyLt (candKey t c) (candKey t b) := by
  cases l with
  | nil => exact absurd rfl hne
  | cons c cs =>
    refine ⟨cs.foldl (pickBetter t) c, rfl, ?_, ?_⟩
    · rcases foldl_pickBetter_mem t cs c with h | h
      · rw [h]; exact List.mem_cons_self _ _
      · exact List.mem_cons_of_mem _ h
    · intro x hx
      rcases List.mem_cons.mp hx with rfl | hx'
      · exact foldl_pickBetter_min t cs x x (Or.inl rfl)
      · exact foldl_pickBetter_min t cs c x (Or.inr hx')

theorem candIdx_fst_nodup (tracks : List Track) (t : ℤ) :
    ((candIdx tracks t).map Prod.fst).Nodup := by
  have hsub : List.Sublist (candIdx tracks t) ((allPoints tracks).enum) := by
    unfold candIdx allPointsIdx
    exact List.filter_sublist _
  have hmap : List.Sublist ((candIdx tracks t).map Prod.fst)
      ((allPoints tracks).enum.map Prod.fst) := hsub.map _
  exact (List.nodup_enum_map_fst _).sublist hmap

theorem candKey_inj (tracks : List Track) (t : ℤ) {a b : ℕ × TrackPoint × ℤ}
    (ha : a ∈ candIdx tracks t) (hb : b ∈ candIdx tracks t)
    (hk : candKey t a = candKey t b) : a = b := by
  have hfst : a.1 = b.1 := congrArg (fun k => k.2.2) hk
  exact List.inj_on_of_nodup_map (candIdx_fst_nodup tracks t) ha hb hfst

/-- C3: on a non-empty candidate set, MatchResolver selects the unique
candidate minimizing the key (time distance, then adjusted time, then
ingestion order); the selection is invariant under any permutation of the
candidate list, so it is a function of TrackStore contents and capture time
alone. -/
theorem C3_selection_deterministic (tracks : List Track) (t : ℤ)
    (hne : candIdx tracks t ≠ []) :
    ∃ b, selectBest t (candIdx tracks t) = some b ∧
      b ∈ candIdx tracks t ∧
      (∀ c ∈ candIdx tracks t, c ≠ b → keyLt (candKey t b) (candKey t c)) ∧
      (∀ l, l.Perm (candIdx tracks t) → selectBest t l = some b) ∧
      resolveMatch tracks t = some b.2.1 := by
  obtain ⟨b, hsel, hmem, hmin⟩ := selectBest_spec t (candIdx tracks t) hne
  refine ⟨b, hsel, hmem, ?_, ?_, ?_⟩
  · intro c hc hcb
    rcases keyLt_total (candKey t b) (candKey t c) with h | h | h
    · exact h
    · exact absurd h (hmin c hc)
    · exact absurd (candKey_inj tracks t hc hmem h.symm) hcb
  · intro l hperm
    have hlne : l ≠ [] := by
      intro h0
      rw [h0] at hperm
      exact hne hperm.nil_eq.symm
    obtain ⟨b', hsel', hmem', hmin'⟩ := selectBest_spec t l hlne
    have hb'c : b' ∈ candIdx tracks t := hperm.mem_iff.mp hmem'
    have hbl : b ∈ l := hperm.mem_iff.mpr hmem
    have h1 : ¬ keyLt (candKey t b') (candKey t b) := hmin b' hb'c
    have h2 : ¬ keyLt (candKey t b) (candKey t b') := hmin' b hbl
    rcases keyLt_total (candKey t b) (candKey t b') with h | h | h
    · exact absurd h h2
    · exact absurd h h1
    · rw [hsel', candKey_inj tracks t hb'c hmem (h.symm)]
  · unfold resolveMatch
    rw [hsel]

/-- Witness for C3: two candidates tied at distance 10 s; the earlier
adjusted time wins. -/
theorem C3_selection_deterministic_witness :
    resolveMatch [⟨"A", [⟨5, 6, none, -10⟩], 0⟩, ⟨"B", [⟨7, 8, none, 10⟩], 0⟩] 0 =
      some ⟨5, 6, none, -10⟩ := by
  obtain ⟨b, hsel, hmem, hmin, hperm, hres⟩ :=
    C3_selection_deterministic
      [⟨"A", [⟨5, 6, none, -10⟩], 0⟩, ⟨"B", [⟨7, 8, none, 10⟩], 0⟩] 0 (by decide)
  have hval : selectBest 0
      (candIdx [⟨"A", [⟨5, 6, none, -10⟩], 0⟩, ⟨"B", [⟨7, 8, none, 10⟩], 0⟩] 0) =
      some (0, ⟨5, 6, none, -10⟩, -10) := by decide
  rw [hsel] at hval
  have hb := Option.some_inj.mp hval
  rw [hb] at hres
  exact hres

/-! ## Offset inversion (C4) -/

theorem filter_map_id_eq {f : Track → Track} (hf : ∀ tr, (f tr).id = tr.id)
    (tid : String) :
    ∀ l : List Track,
      (l.map f).filter (fun tr => tr.id == tid) =
        (l.filter (fun tr => tr.id == tid)).map f := by
  intro l
  induction l with
  | nil => rfl
  | cons tr l ih =>
    simp only [List.map_cons, List.filter]
    rw [hf tr]
    cases h : tr.id == tid with
    | false => exact ih
    | true => rw [List.map_cons, ih]

theorem setOffsetSeconds_tracks (st : SysState) (tid : String) (v : ℤ)
    (hany : (st.tracks.any fun tr => tr.id == tid) = true) :
    (setOffsetSeconds st tid v).2.tracks =
      if tid = "*" then st.tracks.map (fun tr => { tr with offsetSeconds := v })
      else st.tracks.map (fun tr =>
        if tr.id = tid then { tr with offsetSeconds := v } else tr) := by
  unfold setOffsetSeconds
  by_cases h1 : tid = "*"
  · rw [if_pos h1, if_pos h1]
    rfl
  · rw [if_neg h1, if_pos hany, if_neg h1]
    rfl

/-- C4: setting a track's offset and then setting it again to the value it
had before (the inverse of the first call, since `setOffset` is absolute)
restores the track exactly, hence restores `adjustedTime` for every point;
and `adjustedTime(p) = p.originalTime + offsetSeconds` always. -/
theorem C4_setOffset_inverse (st : SysState) (tid : String) (v : ℤ) (tr : Track)
    (hone : st.tracks.filter (fun tr' => tr'.id == tid) = [tr]) :
    ((setOffsetSeconds (setOffsetSeconds st tid v).2 tid tr.offsetSeconds).2.tracks.filter
        (fun tr' => tr'.id == tid) = [tr]) ∧
    (∀ p : TrackPoint, adjustedTime tr p = p.time + tr.offsetSeconds) := by
  constructor
  · have hmem : tr ∈ st.tracks.filter (fun tr' => tr'.id == tid) := by
      rw [hone]; exact List.mem_cons_self _ _
    have hid : (tr.id == tid) = true := (List.mem_filter.mp hmem).2
    have hany : (st.tracks.any fun tr' => tr'.id == tid) = true :=
      List.any_eq_true.mpr ⟨tr, (List.mem_filter.mp hmem).1, hid⟩
    set g1 : Track → Track := fun tr' =>
      if tid = "*" then { tr' with offsetSeconds := v }
      else if tr'.id = tid then { tr' with offsetSeconds := v } else tr' with hg1
    have hg1_id : ∀ tr', (g1 tr').id = tr'.id := by
      intro tr'
      simp only [hg1]
      split
      · rfl
      · split <;> rfl
    have h1tracks : (setOffsetSeconds st tid v).2.tracks = st.tracks.map g1 := by
      rw [setOffsetSeconds_tracks st tid v hany]
      simp only [hg1]
      split
      · rfl
      · rfl
    have hany1 : ((setOffsetSeconds st tid v).2.tracks.any
        fun tr' => tr'.id == tid) = true := by
      rw [h1tracks]
      refine List.any_eq_true.mpr ⟨g1 tr, List.mem_map_of_mem _ (List.mem_filter.mp hmem).1, ?_⟩
      rw [show (g1 tr).id = tr.id from hg1_id tr]
      exact hid
    set g2 : Track → Track := fun tr' =>
      if tid = "*" then { tr' with offsetSeconds := tr.offsetSeconds }
      else if tr'.id = tid then { tr' with offsetSeconds := tr.offsetSeconds } else tr'
      with hg2
    have hg2_id : ∀ tr', (g2 tr').id = tr'.id := by
      intro tr'
      simp only [hg2]
      split
      · rfl
      · split <;> rfl
    have h2tracks :
        (setOffsetSeconds (setOffsetSeconds st tid v).2 tid tr.offsetSeconds).2.tracks =
          ((setOffsetSeconds st tid v).2.tracks).map g2 := by
      rw [setOffsetSeconds_tracks _ tid tr.offsetSeconds hany1]
      simp only [hg2]
      split
      · rfl
      · rfl
    rw [h2tracks, h1tracks, filter_map_id_eq hg2_id tid,
      filter_map_id_eq hg1_id tid, hone]
    have htrid : tr.id = tid := by simpa using hid
    simp only [List.map_map, List.map_cons, List.map_nil, Function.comp]
    congr 1
    simp only [hg1, hg2]
    by_cases h1 : tid = "*"
    · rw [if_pos h1, if_pos h1]
    · rw [if_neg h1, if_neg h1, if_pos htrid]
      simp only [if_pos htrid]
  · intro p
    rfl

/-- Witness for C4 at a concrete store: offset 5 set to 600 and back. -/
theorem C4_setOffset_inverse_witness :
    ((setOffsetSeconds
        (setOffsetSeconds ⟨[⟨"hike", [⟨1, 2, none, 0⟩], 5⟩], []⟩ "hike" 600).2
        "hike" 5).2.tracks.filter
      (fun tr' => tr'.id == "hike") = [⟨"hike", [⟨1, 2, none, 0⟩], 5⟩]) ∧
    (∀ p : TrackPoint,
      adjustedTime ⟨"hike", [⟨1, 2, none, 0⟩], 5⟩ p = p.time + 5) :=
  C4_setOffset_inverse ⟨[⟨"hike", [⟨1, 2, none, 0⟩], 5⟩], []⟩ "hike" 600
    ⟨"hike", [⟨1, 2, none, 0⟩], 5⟩ (by decide)

/-! ## Altitude comes from the winning layer (C5) -/

theorem valid_present (lat lon : ℚ) (alt : Option ℚ)
    (h : validCoordinate lat lon) : CoordLayer.present ⟨lat, lon, alt⟩ := by
  obtain ⟨h1, _, h3, _⟩ := h
  constructor
  · intro he
    rw [show ((⟨lat, lon, alt⟩ : CoordLayer).latitude = lat) from rfl] at he
    rw [he] at h1
    norm_num [absentCoord] at h1
  · intro he
    rw [show ((⟨lat, lon, alt⟩ : CoordLayer).longitude = lon) from rfl] at he
    rw [he] at h3
    norm_num [absentCoord] at h3

/-- C5: the final layer is the whole winning layer, altitude included — a
winning layer with absent altitude yields an absent final altitude, never a
lower-priority layer's altitude; and overwriting a manual position that had
an altitude with one that has none leaves the final altitude absent. -/
theorem C5_altitude_from_winning_layer :
    (∀ m tr e : CoordLayer, m.present → cascade m tr e = m) ∧
    (∀ m tr e : CoordLayer, ¬ m.present → tr.present → cascade m tr e = tr) ∧
    (∀ m tr e : CoordLayer, ¬ m.present → ¬ tr.present → e.present →
      cascade m tr e = e) ∧
    (∀ (st : SysState) (id : String) (lat1 lon1 : ℚ) (alt1 : Option ℚ)
        (lat2 lon2 : ℚ),
      validCoordinate lat2 lon2 →
      ∀ r ∈ (setManual (setManual st id lat1 lon1 alt1).2 id lat2 lon2 none).2.photos,
        r.id = id → r.finalLayer = ⟨lat2, lon2, none⟩) := by
  refine ⟨?_, ?_, ?_, ?_⟩
  · intro m tr e hm
    unfold cascade
    rw [if_pos hm]
  · intro m tr e hm htr
    unfold cascade
    rw [if_neg hm, if_pos htr]
  · intro m tr e hm htr he
    unfold cascade
    rw [if_neg hm, if_neg htr, if_pos he]
  · intro st id lat1 lon1 alt1 lat2 lon2 hv r hr hid
    unfold setManual at hr
    rw [if_pos hv] at hr
    simp only [updatePhoto, List.mem_map] at hr
    obtain ⟨r', _, rfl⟩ := hr
    by_cases h' : r'.id = id
    · rw [if_pos h']
      have : CoordLayer.present ⟨lat2, lon2, none⟩ := valid_present _ _ _ hv
      simp only [recompute, cascade, if_pos this]
    · rw [if_neg h'] at hid ⊢
      exact absurd hid h'

/-- Witness for C5: the spec scenario shape — a manual position with an
altitude overwritten by a manual (10, 20, none) leaves final
latitude/longitude from the second call and an absent altitude. -/
theorem C5_altitude_from_winning_layer_witness :
    (⟨"p", some 0, ⟨1, 2, some 7⟩, emptyLayer, ⟨10, 20, none⟩, ⟨10, 20, none⟩,
        false⟩ : PhotoRecord) ∈
      (setManual
        (setManual
          ⟨[], [⟨"p", some 0, ⟨1, 2, some 7⟩, emptyLayer, emptyLayer,
            ⟨1, 2, some 7⟩, false⟩]⟩
          "p" (43 : ℚ) (-2 : ℚ) (some 125)).2
        "p" (10 : ℚ) (20 : ℚ) none).2.photos ∧
    (⟨"p", some 0, ⟨1, 2, some 7⟩, emptyLayer, ⟨10, 20, none⟩, ⟨10, 20, none⟩,
        false⟩ : PhotoRecord).finalLayer = ⟨10, 20, none⟩ :=
  ⟨by decide,
   C5_altitude_from_winning_layer.2.2.2
    ⟨[], [⟨"p", some 0, ⟨1, 2, some 7⟩, emptyLayer, emptyLayer,
      ⟨1, 2, some 7⟩, false⟩]⟩
    "p" (43 : ℚ) (-2 : ℚ) (some 125) (10 : ℚ) (20 : ℚ)
    (by norm_num [validCoordinate]) _ (by decide) rfl⟩

/-! ## Failing operations leave the state untouched (C6) -/

/-- C6: every fallible operation — ingest (duplicate track), setOffset
(bad offset syntax or unknown track id, in both the textual and the
integer-offset form), setManual (out-of-range coordinate) — validates
before mutating: when it reports an error, the resulting state is exactly
the input state. -/
theorem C6_failing_ops_preserve_state :
    (∀ (st : SysState) (tid : String) (pts : List TrackPoint),
      (ingest st tid pts).1.isSome = true → (ingest st tid pts).2 = st) ∧
    (∀ (st : SysState) (tid : String) (off : String),
      (setOffset st tid off).1.isSome = true → (setOffset st tid off).2 = st) ∧
    (∀ (st : SysState) (tid : String) (off : ℤ),
      (setOffsetSeconds st tid off).1.isSome = true →
        (setOffsetSeconds st tid off).2 = st) ∧
    (∀ (st : SysState) (id : String) (lat lon : ℚ) (alt : Option ℚ),
      (setManual st id lat lon alt).1.isSome = true →
        (setManual st id lat lon alt).2 = st) := by
  have hoffsec : ∀ (st : SysState) (tid : String) (off : ℤ),
      (setOffsetSeconds st tid off).1.isSome = true →
        (setOffsetSeconds st tid off).2 = st := by
    intro st tid off h
    unfold setOffsetSeconds at h ⊢
    by_cases h1 : tid = "*"
    · rw [if_pos h1] at h
      simp at h
    · by_cases h2 : (st.tracks.any fun tr => tr.id == tid) = true
      · rw [if_neg h1, if_pos h2] at h
        simp at h
      · rw [if_neg h1, if_neg h2]
  refine ⟨?_, ?_, hoffsec, ?_⟩
  · intro st tid pts h
    unfold ingest at h ⊢
    by_cases hc : (st.tracks.any fun tr => lowerString tr.id == lowerString tid) = true
    · rw [if_pos hc]
    · rw [if_neg hc] at h
      simp at h
  · intro st tid off h
    unfold setOffset at h ⊢
    cases hp : parseOffset off with
    | none => rfl
    | some v =>
      rw [hp] at h
      exact hoffsec st tid v h
  · intro st id lat lon alt h
    unfold setManual at h ⊢
    by_cases hv : validCoordinate lat lon
    · rw [if_pos hv] at h
      simp at h
    · rw [if_neg hv]

/-- Witness for C6: a duplicate ingest, a malformed offset, an unknown
track id, and an out-of-range latitude each error and leave the concrete
store untouched. -/
theorem C6_failing_ops_preserve_state_witness :
    (ingest ⟨[⟨"Hike", [], 0⟩], []⟩ "hike" []).2 = ⟨[⟨"Hike", [], 0⟩], []⟩ ∧
    (setOffset ⟨[⟨"Hike", [], 0⟩], []⟩ "Hike" "02:00:00").2 =
      ⟨[⟨"Hike", [], 0⟩], []⟩ ∧
    (setOffsetSeconds ⟨[⟨"Hike", [], 0⟩], []⟩ "walk" 60).2 =
      ⟨[⟨"Hike", [], 0⟩], []⟩ ∧
    (setManual ⟨[], [⟨"p", none, emptyLayer, emptyLayer, emptyLayer,
        emptyLayer, false⟩]⟩ "p" 91 0 none).2 =
      ⟨[], [⟨"p", none, emptyLayer, emptyLayer, emptyLayer, emptyLayer, false⟩]⟩ :=
  ⟨C6_failing_ops_preserve_state.1 _ "hike" [] (by decide),
   C6_failing_ops_preserve_state.2.1 _ "Hike" "02:00:00" (by decide),
   C6_failing_ops_preserve_state.2.2.1 _ "walk" 60 (by decide),
   C6_failing_ops_preserve_state.2.2.2 _ "p" 91 0 none (by decide)⟩

/-! ## Collision-free generated names (C7) -/

theorem chooseName_not_used {used : List String} {base nm : String}
    (h : chooseName used base = some nm) : lowerName nm ∉ used := by
  unfold chooseName at h
  by_cases hb : lowerName base ∉ used
  · rw [if_pos hb] at h
    cases h
    exact hb
  · rw [if_neg hb] at h
    cases hfind : suffixLetters.find? fun c => decide (lowerName (base.push c) ∉ used) with
    | none =>
      rw [hfind] at h
      cases h
    | some c =>
      rw [hfind] at h
      have hc := List.find?_some hfind
      cases h
      simpa using hc

theorem resolveNamesGo_spec :
    ∀ (bases : List String) (used : List String) (names : List String),
      resolveNamesGo used bases = some names →
      (names.map lowerName).Nodup ∧ (∀ n ∈ names, lowerName n ∉ used) ∧
        names.length = bases.length := by
  intro bases
  induction bases with
  | nil =>
    intro used names h
    cases h
    exact ⟨List.nodup_nil, by simp, rfl⟩
  | cons b bs ih =>
    intro used names h
    unfold resolveNamesGo at h
    cases hch : chooseName used b with
    | none =>
      rw [hch] at h
      cases h
    | some nm =>
      rw [hch] at h
      dsimp only at h
      cases hrec : resolveNamesGo (lowerName nm :: used) bs with
      | none =>
        rw [hrec] at h
        simp at h
      | some ns =>
        rw [hrec] at h
        dsimp only [Option.map] at h
        cases h
        obtain ⟨hnodup, hfresh, hlen⟩ := ih _ _ hrec
        refine ⟨?_, ?_, by simpa using hlen⟩
        · rw [List.map_cons, List.nodup_cons]
          refine ⟨?_, hnodup⟩
          intro hmem
          obtain ⟨n, hn, he⟩ := List.mem_map.mp hmem
          have := hfresh n hn
          rw [he] at this
          exact this (List.mem_cons_self _ _)
        · intro n hn
          rcases List.mem_cons.mp hn with rfl | hn'
          · exact chooseName_not_used hch
          · intro hused
            exact hfresh n hn' (List.mem_cons_of_mem _ hused)

/-- C7: whenever the resolver completes a pass, the generated names are
pairwise distinct under case-insensitive comparison, one name per input
base; and the spec's triple-duplicate scenario yields the base name, then
the `a` and `b` suffixes, in sequence order. -/
theorem C7_resolveNames_distinct :
    (∀ (bases names : List String), resolveNames bases = some names →
      (names.map lowerName).Nodup ∧ names.length = bases.length) ∧
    resolveNames ["20260101_120000", "20260101_120000", "20260101_120000"] =
      some ["20260101_120000", "20260101_120000a", "20260101_120000b"] := by
  constructor
  · intro bases names h
    obtain ⟨hnodup, _, hlen⟩ := resolveNamesGo_spec bases [] names h
    exact ⟨hnodup, hlen⟩
  · decide

/-- Witness for C7 applying the distinctness theorem to the scenario run. -/
theorem C7_resolveNames_distinct_witness :
    ((["20260101_120000", "20260101_120000a", "20260101_120000b"].map
        lowerName).Nodup ∧
      (["20260101_120000", "20260101_120000a", "20260101_120000b"] : List String).length =
        (["20260101_120000", "20260101_120000", "20260101_120000"] : List String).length) :=
  C7_resolveNames_distinct.1
    ["20260101_120000", "20260101_120000", "20260101_120000"]
    ["20260101_120000", "20260101_120000a", "20260101_120000b"]
    C7_resolveNames_distinct.2

/-! ## The absent sentinel at the interface (C8) -/

/-- C8: the display path treats a layer as present exactly when both its
latitude and longitude differ from −360; an exact-zero coordinate is
present and displayed; deleting the manual marker restores the −360
sentinel in both manual fields. -/
theorem C8_present_iff_both_not_sentinel :
    (∀ (lat lon : ℚ) (alt : Option ℚ),
      formatCoords lat lon alt ≠ none ↔ (lat ≠ -360 ∧ lon ≠ -360)) ∧
    formatCoords 0 0 none = some (0, 0, none) ∧
    (∀ p : PhotoJS, (deleteManualMarker p).manual_latitude = -360 ∧
      (deleteManualMarker p).manual_longitude = -360) := by
  refine ⟨?_, by decide, fun p => ⟨rfl, rfl⟩⟩
  intro lat lon alt
  unfold formatCoords
  by_cases h : lat = -360 ∨ lon = -360
  · rw [if_pos h]
    constructor
    · intro hne
      exact absurd rfl hne
    · intro ⟨h1, h2⟩
      rcases h with h | h
      · exact absurd h h1
      · exact absurd h h2
  · rw [if_neg h]
    push_neg at h
    constructor
    · intro _
      exact h
    · intro _ hnone
      cases hnone

/-- Witness for C8: zero coordinates display as present, coordinates with a
−360 longitude do not. -/
theorem C8_present_iff_both_not_sentinel_witness :
    formatCoords 0 0 none ≠ none ∧ ¬ formatCoords 1 (-360) none ≠ none :=
  ⟨(C8_present_iff_both_not_sentinel.1 0 0 none).mpr (by decide),
   fun h => absurd ((C8_present_iff_both_not_sentinel.1 1 (-360) none).mp h).2
     (by decide)⟩

/-! ## GPS filters consult only the latitude (C10) -/

/-- C10: the tag/GPS filter predicate of `applyFilters` reads only the four
latitudes and the tag flag — two photos differing only in longitudes are
classified identically — and each GPS filter tests its source's latitude
against −360, so a record with latitude present and longitude −360 still
counts as having that source. -/
theorem C10_filters_test_latitude_only :
    (∀ (ft : String) (p q : PhotoJS),
      p.exif_latitude = q.exif_latitude → p.gpx_latitude = q.gpx_latitude →
      p.manual_latitude = q.manual_latitude → p.final_latitude = q.final_latitude →
      p.tagged = q.tagged → applyFiltersPred ft p = applyFiltersPred ft q) ∧
    (∀ p : PhotoJS,
      applyFiltersPred "with-exif" p = decide (p.exif_latitude ≠ -360) ∧
      applyFiltersPred "with-gpx" p = decide (p.gpx_latitude ≠ -360) ∧
      applyFiltersPred "with-manual" p = decide (p.manual_latitude ≠ -360) ∧
      applyFiltersPred "with-gps" p = decide (p.final_latitude ≠ -360) ∧
      applyFiltersPred "no-gps" p = !decide (p.final_latitude ≠ -360)) ∧
    (∀ lon : ℚ,
      applyFiltersPred "with-exif"
        ⟨1, lon, -360, -360, -360, -360, -360, -360, false⟩ = true) := by
  refine ⟨?_, ?_, ?_⟩
  · intro ft p q h1 h2 h3 h4 h5
    unfold applyFiltersPred
    rw [h1, h2, h3, h4, h5]
  · intro p
    exact ⟨rfl, rfl, rfl, rfl, rfl⟩
  · intro lon
    rfl

/-- Witness for C10: two photos equal except in longitudes are classified
the same by the combined filter. -/
theorem C10_filters_test_latitude_only_witness :
    applyFiltersPred "tagged-with-gps" ⟨1, 2, 3, 4, 5, 6, 7, 8, true⟩ =
      applyFiltersPred "tagged-with-gps" ⟨1, -360, 3, -360, 5, -360, 7, -360, true⟩ :=
  C10_filters_test_latitude_only.1 "tagged-with-gps"
    ⟨1, 2, 3, 4, 5, 6, 7, 8, true⟩ ⟨1, -360, 3, -360, 5, -360, 7, -360, true⟩
    rfl rfl rfl rfl rfl

/-! ## Offset formatting round-trip (C9) -/

theorem digit_facts (k : ℕ) (hk : k ≤ 9) :
    (digitChar k).isDigit = true ∧ digitVal (digitChar k) = k := by
  interval_cases k <;> exact ⟨by decide, by decide⟩

theorem toDec_small {n : ℕ} (h : n < 10) : toDec n = [digitChar n] := by
  rw [toDec]
  rw [dif_pos h]

theorem padStart2_toDec (n : ℕ) (h : n ≤ 99) : padStart2 (toDec n) = pad2 n := by
  by_cases h1 : n < 10
  · rw [toDec_small h1]
    unfold padStart2 pad2
    have h2 : n / 10 = 0 := by omega
    have h3 : n % 10 = n := by omega
    rw [h2, h3]
    rfl
  · have hq : n / 10 < 10 := by omega
    have hsplit : toDec n = toDec (n / 10) ++ [digitChar (n % 10)] := by
      rw [toDec]
      rw [dif_neg (by omega)]
    rw [hsplit, toDec_small hq]
    rfl

theorem formatOffsetSeconds_data (s : ℤ) (h : s.natAbs < 360000) :
    (formatOffsetSeconds s).data =
      (if s ≥ 0 then '+' else '-') :: pad2 (s.natAbs / 3600) ++
        ':' :: pad2 ((s.natAbs % 3600) / 60) ++ ':' :: pad2 (s.natAbs % 60) := by
  have hgoal : (formatOffsetSeconds s).data =
      (if s ≥ 0 then '+' else '-') :: padStart2 (toDec (s.natAbs / 3600)) ++
        ':' :: padStart2 (toDec (s.natAbs % 3600 / 60)) ++
        ':' :: padStart2 (toDec (s.natAbs % 60)) := rfl
  rw [hgoal, padStart2_toDec _ (by omega), padStart2_toDec _ (by omega),
    padStart2_toDec _ (by omega)]

theorem parseOffset_pads (sg : Char) (hsg : sg = '+' ∨ sg = '-')
    (hh mm ss : ℕ) (hhh : hh ≤ 99) (hmm : mm ≤ 59) (hss : ss ≤ 59) :
    parseOffset ⟨sg :: pad2 hh ++ ':' :: pad2 mm ++ ':' :: pad2 ss⟩ =
      some (if sg == '+' then ((3600 * hh + 60 * mm + ss : ℕ) : ℤ)
        else -((3600 * hh + 60 * mm + ss : ℕ) : ℤ)) := by
  obtain ⟨hd1, hv1⟩ := digit_facts (hh / 10) (by omega)
  obtain ⟨hd2, hv2⟩ := digit_facts (hh % 10) (by omega)
  obtain ⟨hd3, hv3⟩ := digit_facts (mm / 10) (by omega)
  obtain ⟨hd4, hv4⟩ := digit_facts (mm % 10) (by omega)
  obtain ⟨hd5, hv5⟩ := digit_facts (ss / 10) (by omega)
  obtain ⟨hd6, hv6⟩ := digit_facts (ss % 10) (by omega)
  have hsgb : (sg == '+' || sg == '-') = true := by
    rcases hsg with rfl | rfl <;> decide
  unfold parseOffset
  simp only [pad2, List.cons_append, List.nil_append]
  simp only [hsgb, hd1, hd2, hd3, hd4, hd5, hd6, Bool.true_and, Bool.and_self,
    Bool.and_true, if_true]
  rw [hv1, hv2, hv3, hv4, hv5, hv6]
  have harith : (hh / 10 * 10 + hh % 10) * 3600 + (mm / 10 * 10 + mm % 10) * 60 +
      (ss / 10 * 10 + ss % 10) = 3600 * hh + 60 * mm + ss := by omega
  rw [harith]
  simp

/-- C9: for |seconds| < 360000, `formatOffsetSeconds` produces a mandatory
sign (`+` exactly when seconds ≥ 0) followed by three two-digit zero-padded
colon-separated fields, its value decomposes as sign × (3600·h + 60·m + s),
and re-parsing the string with the spec's signed `HH:MM:SS` grammar returns
the original seconds. -/
theorem C9_formatOffsetSeconds_roundTrip (s : ℤ) (h : s.natAbs < 360000) :
    ∃ hh mm ss : ℕ, hh ≤ 99 ∧ mm ≤ 59 ∧ ss ≤ 59 ∧
      (formatOffsetSeconds s).data =
        (if s ≥ 0 then '+' else '-') :: pad2 hh ++ ':' :: pad2 mm ++
          ':' :: pad2 ss ∧
      (if s ≥ 0 then (1 : ℤ) else -1) * (3600 * hh + 60 * mm + ss) = s ∧
      parseOffset (formatOffsetSeconds s) = some s := by
  refine ⟨s.natAbs / 3600, s.natAbs % 3600 / 60, s.natAbs % 60,
    by omega, by omega, by omega, formatOffsetSeconds_data s h, ?_, ?_⟩
  · by_cases hs : s ≥ 0
    · rw [if_pos hs]
      omega
    · rw [if_neg hs]
      omega
  · have hdata := formatOffsetSeconds_data s h
    have hstr : formatOffsetSeconds s =
        ⟨(if s ≥ 0 then '+' else '-') :: pad2 (s.natAbs / 3600) ++
          ':' :: pad2 (s.natAbs % 3600 / 60) ++ ':' :: pad2 (s.natAbs % 60)⟩ :=
      congrArg String.mk hdata
    have hsg : (if s ≥ 0 then '+' else '-') = '+' ∨
        (if s ≥ 0 then '+' else '-') = '-' := by
      by_cases hs : s ≥ 0
      · exact Or.inl (if_pos hs)
      · exact Or.inr (if_neg hs)
    rw [hstr, parseOffset_pads _ hsg _ _ _ (by omega) (by omega) (by omega)]
    by_cases hs : s ≥ 0
    · rw [if_pos hs]
      have hb : (('+' : Char) == '+') = true := by decide
      rw [hb]
      simp only [if_true]
      refine congrArg some ?_
      omega
    · rw [if_neg hs]
      have hb : (('-' : Char) == '+') = false := by decide
      rw [hb]
      simp only [Bool.false_eq_true, if_false]
      refine congrArg some ?_
      omega

/-- Witness for C9 at a concrete negative offset of −1 h 1 min 1 s. -/
theorem C9_formatOffsetSeconds_roundTrip_witness :
    ((-3661 : ℤ).natAbs < 360000) ∧
    ∃ hh mm ss : ℕ, hh ≤ 99 ∧ mm ≤ 59 ∧ ss ≤ 59 ∧
      (formatOffsetSeconds (-3661)).data =
        (if (-3661 : ℤ) ≥ 0 then '+' else '-') :: pad2 hh ++ ':' :: pad2 mm ++
          ':' :: pad2 ss ∧
      (if (-3661 : ℤ) ≥ 0 then (1 : ℤ) else -1) * (3600 * hh + 60 * mm + ss) =
        -3661 ∧
      parseOffset (formatOffsetSeconds (-3661)) = some (-3661) :=
  ⟨by decide, C9_formatOffsetSeconds_roundTrip (-3661) (by decide)⟩

end Geotag
